import Mathlib

/-!
A shallow embedding of the `soongo/path-to-regexp` Go library
(`path_to_regexp.go`): the pattern lexer, parser (`Parse`), regex builder
(`tokensToRegExp`), path compiler (`tokensToFunction` / `Compile`) and
matcher (`regexpToFunction` / `Match`), together with an executable model of
the `regexp2` matching engine (the external .NET-style regex library the Go
code delegates to) for the regex dialect the library emits.

Go strings are modelled as Lean `String` (sequences of runes, matching the
Go code's use of `strings.Split(str, "")` to work rune-by-rune).  Go runtime
panics (out-of-range indexing) are modelled explicitly by the `GoRes.panicked`
outcome.  The `encode`/`decode` hooks are external collaborators; all claims
use `nil` options, so the embedding fixes them to the source's defaults
(`identity` for encode, the no-op decode of `regexpToFunction`).
-/

namespace PathToRegexp

/-- Left brace character (written via its code point). -/
def lbrace : Char := Char.ofNat 123

/-- Right brace character (written via its code point). -/
def rbrace : Char := Char.ofNat 125

/-- Outcome of running a piece of Go code that can return a value, return an
`error`, or hit a runtime panic (out-of-range index). -/
inductive GoRes (α : Type) where
  | ok (a : α)
  | err (msg : String)
  | panicked
  deriving DecidableEq, Repr

def GoRes.bind {α β : Type} : GoRes α → (α → GoRes β) → GoRes β
  | .ok a, f => f a
  | .err m, _ => .err m
  | .panicked, _ => .panicked

instance : Monad GoRes where
  pure := GoRes.ok
  bind := GoRes.bind

def GoRes.map {α β : Type} (f : α → β) : GoRes α → GoRes β
  | .ok a => .ok (f a)
  | .err m => .err m
  | .panicked => .panicked

/-- `strings.Index(s, sub)`: byte/rune index of the first occurrence of `sub`
in `s`, `-1` if absent; the empty substring is found at index 0.  (All uses in
the library look up single-rune or empty strings, where rune and byte indices
agree.) -/
def goIndexAux (sub : List Char) : List Char → Nat → Int
  | s, i =>
    if sub.isPrefixOf s then (i : Int)
    else match s with
      | [] => -1
      | _ :: t => goIndexAux sub t (i+1)

def goIndexChars (s sub : List Char) : Int := goIndexAux sub s 0

def goIndex (s sub : String) : Int := goIndexChars s.data sub.data

/-- `strings.Split(s, sep)`: with empty `sep`, splits into the individual
runes (`[]` for the empty string); otherwise splits around each
non-overlapping occurrence of `sep`, left to right. -/
def splitOnChars (sep : List Char) (fuel : Nat) (s : List Char) :
    List (List Char) :=
  match fuel with
  | 0 => [s]
  | fuel+1 =>
    if sep.isPrefixOf s then [] :: splitOnChars sep fuel (s.drop sep.length)
    else match s with
      | [] => [[]]
      | c :: t =>
        match splitOnChars sep fuel t with
        | [] => [[c]]
        | h :: r => (c :: h) :: r

def goSplitChars (s sep : List Char) : List (List Char) :=
  match sep with
  | [] => s.map (fun c => [c])
  | _ => splitOnChars sep (s.length + 1) s

def goSplit (s sep : String) : List String :=
  (goSplitChars s.data sep.data).map (fun l => String.mk l)

/-- The characters escaped by the library's `escapeRegexp`
(`([.+*?=^!:${}()[\]|/\\])`). -/
def escapeSet : List Char :=
  ['.', '+', '*', '?', '=', '^', '!', ':', '$', lbrace, rbrace,
   '(', ')', '[', ']', '|', '/', '\\']

/-- `escapeString`: prepend a backslash to every regex metacharacter.
(The Go version runs `escapeRegexp.Replace(str, "\\$1", -1, -1)`, whose
error result is always nil.) -/
def escapeChars (l : List Char) : List Char :=
  match l with
  | [] => []
  | c :: t => (if c ∈ escapeSet then ['\\', c] else [c]) ++ escapeChars t

def escapeString (s : String) : String := String.mk (escapeChars s.data)

/-- `anyString` (first non-empty string) at the two-argument uses in the
library. -/
def anyString2 (a b : String) : String :=
  if a ≠ "" then a else if b ≠ "" then b else ""

/-- `Token`: a parameter descriptor produced by `Parse`.  `Name` is a Go
`interface{}` holding a string (named parameter) or an int (positional). -/
inductive TokName where
  | str (s : String)
  | idx (n : Nat)
  deriving DecidableEq, Repr

structure Token where
  Name : TokName
  Prefix : String
  Suffix : String
  Pattern : String
  Modifier : String
  deriving DecidableEq, Repr

/-- One element of `Parse`'s `[]interface{}` result: a literal string or a
`Token`. -/
inductive Segment where
  | lit (s : String)
  | tok (t : Token)
  deriving DecidableEq, Repr

/-- The non-function `Options` fields.  The `Encode`/`Decode` hooks are fixed
to the source defaults (identity), as in every claim (`nil` options). -/
structure POptions where
  Sensitive : Bool
  Strict : Bool
  End : Option Bool
  Start : Option Bool
  Validate : Option Bool
  Delimiter : String
  EndsWith : String
  Prefixes : Option String
  deriving DecidableEq, Repr

/-- The zero-valued `Options{}` the library substitutes for `nil`. -/
def emptyOptions : POptions :=
  ⟨false, false, none, none, none, "", "", none⟩

/-- `lexTokenMode`. -/
inductive LexMode where
  | mOpen
  | mClose
  | mPattern
  | mName
  | mChar
  | mEscapedChar
  | mModifier
  | mEnd
  deriving DecidableEq, Repr

/-- The numeric value of a mode (Go `iota`), as printed by `%d` in error
messages. -/
def LexMode.toNat : LexMode → Nat
  | .mOpen => 0
  | .mClose => 1
  | .mPattern => 2
  | .mName => 3
  | .mChar => 4
  | .mEscapedChar => 5
  | .mModifier => 6
  | .mEnd => 7

structure LexToken where
  mode : LexMode
  index : Nat
  value : String
  deriving DecidableEq, Repr

/-- The identifier-character test of the lexer's name scan: Go checks
`len(arr[j]) == 1` (a single-byte rune) and then byte ranges `0-9A-Za-z_`. -/
def isNameChar (c : Char) : Bool :=
  c.toNat ≤ 127 &&
    ((48 ≤ c.toNat && c.toNat ≤ 57) || (65 ≤ c.toNat && c.toNat ≤ 90) ||
     (97 ≤ c.toNat && c.toNat ≤ 122) || c.toNat == 95)

/-- The lexer's name scan: starting at `j`, collect identifier characters;
returns the name and the index one past it. -/
def scanName (arr : List Char) (fuel j : Nat) (acc : String) : String × Nat :=
  match fuel with
  | 0 => (acc, j)
  | fuel+1 =>
    match arr.get? j with
    | some c =>
      if isNameChar c then scanName arr fuel (j+1) (acc ++ c.toString)
      else (acc, j)
    | none => (acc, j)

/-- The lexer's pattern scan (the loop body of the `(` case): returns the
final nesting `count`, the pattern body and the index one past the scan, an
error, or a panic when the Go code would index out of range (`arr[j+1]`).
The caller reports "unbalanced pattern" when the returned count is nonzero
(the scan ran off the end of the input). -/
def scanPattern (arr : List Char) (fuel : Nat) (count : Nat) (pat : String)
    (j : Nat) : GoRes (Nat × String × Nat) :=
  match fuel with
  | 0 => .panicked
  | fuel+1 =>
    match arr.get? j with
    | none => .ok (count, pat, j)
    | some c =>
      if c = '\\' then
        match arr.get? (j+1) with
        | none => .panicked
        | some d => scanPattern arr fuel count (pat ++ "\\" ++ d.toString) (j+2)
      else if c = ')' then
        if count = 1 then .ok (0, pat, j+1)
        else scanPattern arr fuel (count-1) (pat ++ ")") (j+1)
      else if c = '(' then
        match arr.get? (j+1) with
        | none => .panicked
        | some d =>
          if d ≠ '?' then .err ("capturing groups are not allowed at " ++ toString j)
          else scanPattern arr fuel (count+1) (pat ++ "(") (j+1)
      else
        scanPattern arr fuel count (pat ++ c.toString) (j+1)

def lexerFuel (arr : List Char) : Nat := arr.length + 2

/-- The lexer main loop.  Faithful to the Go `lexer`: each branch of the loop,
with Go's `arr[i+1]` accesses modelled as panics when out of range. -/
def lexLoop (arr : List Char) (fuel : Nat) (i : Nat) (acc : List LexToken) :
    GoRes (List LexToken) :=
  match fuel with
  | 0 => .panicked
  | fuel+1 =>
    match arr.get? i with
    | none => .ok (acc ++ [⟨.mEnd, i, ""⟩])
    | some c =>
      if c = '*' ∨ c = '+' ∨ c = '?' then
        lexLoop arr fuel (i+1) (acc ++ [⟨.mModifier, i, c.toString⟩])
      else if c = '\\' then
        match arr.get? (i+1) with
        | none => .panicked
        | some d => lexLoop arr fuel (i+2) (acc ++ [⟨.mEscapedChar, i, d.toString⟩])
      else if c = lbrace then
        lexLoop arr fuel (i+1) (acc ++ [⟨.mOpen, i, c.toString⟩])
      else if c = rbrace then
        lexLoop arr fuel (i+1) (acc ++ [⟨.mClose, i, c.toString⟩])
      else if c = ':' then
        let fj := scanName arr (lexerFuel arr) (i+1) ""
        if fj.1 = "" then .err ("missing parameter name at " ++ toString i)
        else lexLoop arr fuel fj.2 (acc ++ [⟨.mName, i, fj.1⟩])
      else if c = '(' then
        match arr.get? (i+1) with
        | none => .panicked
        | some d =>
          if d = '?' then .err ("pattern cannot start with \"?\" at " ++ toString (i+1))
          else
            match scanPattern arr (lexerFuel arr) 1 "" (i+1) with
            | .panicked => .panicked
            | .err m => .err m
            | .ok (count, pat, j) =>
              if count ≠ 0 then .err ("unbalanced pattern at " ++ toString i)
              else if pat = "" then .err ("missing pattern at " ++ toString i)
              else lexLoop arr fuel j (acc ++ [⟨.mPattern, i, pat⟩])
      else
        lexLoop arr fuel (i+1) (acc ++ [⟨.mChar, i, c.toString⟩])

/-- `lexer`: tokenize the input string. -/
def lexer (str : String) : GoRes (List LexToken) :=
  lexLoop str.data (lexerFuel str.data) 0 []

end PathToRegexp


namespace PathToRegexp

/-- `value != nil && *value != ""` for a `tryConsume` result. -/
def optNE : Option String → Bool
  | some s => s ≠ ""
  | none => false

/-- `tryConsume(mode)`: if the token at `i` has the given mode, consume it. -/
def tryConsume (toks : List LexToken) (m : LexMode) (i : Nat) :
    Option String × Nat :=
  match toks.get? i with
  | some t => if t.mode = m then (some t.value, i+1) else (none, i)
  | none => (none, i)

/-- `mustConsume(mode)`: consume or fail with the `unexpected … at …,
expected …` error (modes printed as their numeric values, as `%d` does). -/
def mustConsume (toks : List LexToken) (m : LexMode) (i : Nat) : GoRes Nat :=
  match tryConsume toks m i with
  | (some _, i1) => .ok i1
  | (none, _) =>
    match toks.get? i with
    | none => .panicked
    | some t =>
      .err ("unexpected " ++ toString t.mode.toNat ++ " at " ++
        toString t.index ++ ", expected " ++ toString m.toNat)

/-- `consumeText`: accumulate consecutive `Char`/`EscapedChar` tokens. -/
def consumeText (toks : List LexToken) (fuel i : Nat) (acc : String) :
    String × Nat :=
  match fuel with
  | 0 => (acc, i)
  | fuel+1 =>
    let ci := tryConsume toks .mChar i
    let vi :=
      match ci.1 with
      | some s => if s = "" then tryConsume toks .mEscapedChar ci.2 else ci
      | none => tryConsume toks .mEscapedChar ci.2
    match vi.1 with
    | some s => if s ≠ "" then consumeText toks fuel vi.2 (acc ++ s) else (acc, vi.2)
    | none => (acc, vi.2)

/-- The main loop of `Parse`, over the lexer's token list.  State: cursor `i`,
unnamed-parameter counter `key`, pending literal buffer `path`, accumulated
result `res`. -/
def parseLoop (toks : List LexToken) (pfx dfl : String) (fuel : Nat)
    (i key : Nat) (path : String) (res : List Segment) : GoRes (List Segment) :=
  match fuel with
  | 0 => .panicked
  | fuel+1 =>
    if i < toks.length then
      let ci := tryConsume toks .mChar i
      let ni := tryConsume toks .mName ci.2
      let pi := tryConsume toks .mPattern ni.2
      if optNE ni.1 ∨ optNE pi.1 then
        let pre0 := match ci.1 with
          | some c => if c ≠ "" then c else ""
          | none => ""
        let pp := if goIndex pfx pre0 = -1 then (path ++ pre0, "") else (path, pre0)
        let res1 := if pp.1 ≠ "" then res ++ [.lit pp.1] else res
        let nk : TokName × Nat := match ni.1 with
          | some s => if s ≠ "" then (.str s, key) else (.idx key, key+1)
          | none => (.idx key, key+1)
        let pattern := match pi.1 with
          | some s => if s ≠ "" then s else dfl
          | none => dfl
        let mi := tryConsume toks .mModifier pi.2
        let modifier := match mi.1 with
          | some s => if s ≠ "" then s else ""
          | none => ""
        parseLoop toks pfx dfl fuel mi.2 nk.2 ""
          (res1 ++ [.tok ⟨nk.1, pp.2, "", pattern, modifier⟩])
      else
        let vi := match ci.1 with
          | some c => if c ≠ "" then (some c, pi.2) else tryConsume toks .mEscapedChar pi.2
          | none => tryConsume toks .mEscapedChar pi.2
        if optNE vi.1 then
          parseLoop toks pfx dfl fuel vi.2 key (path ++ (vi.1.getD "")) res
        else
          let res1 := if path ≠ "" then res ++ [.lit path] else res
          let oi := tryConsume toks .mOpen vi.2
          if optNE oi.1 then
            let pr := consumeText toks (toks.length + 1) oi.2 ""
            let ni2 := tryConsume toks .mName pr.2
            let pi2 := tryConsume toks .mPattern ni2.2
            let su := consumeText toks (toks.length + 1) pi2.2 ""
            match mustConsume toks .mClose su.2 with
            | .panicked => .panicked
            | .err m => .err m
            | .ok i10 =>
              let nkPat : TokName × Nat := match pi2.1 with
                | some p => if p ≠ "" then (.idx key, key+1) else (.str "", key)
                | none => (.str "", key)
              let nk : TokName × Nat := match ni2.1 with
                | some s => if s ≠ "" then (.str s, key) else nkPat
                | none => nkPat
              let pattern :=
                if optNE ni2.1 ∧ ¬ optNE pi2.1 then dfl
                else match pi2.1 with
                  | none => ""
                  | some p => p
              let mi := tryConsume toks .mModifier i10
              let modifier := match mi.1 with
                | some s => if s ≠ "" then s else ""
                | none => ""
              parseLoop toks pfx dfl fuel mi.2 nk.2 ""
                (res1 ++ [.tok ⟨nk.1, pr.1, su.1, pattern, modifier⟩])
          else
            match mustConsume toks .mEnd oi.2 with
            | .panicked => .panicked
            | .err m => .err m
            | .ok i6 => parseLoop toks pfx dfl fuel i6 key "" res1
    else
      .ok res

/-- `Parse`: parse a pattern string into literal and `Token` segments.
`none` options model the Go `nil`. -/
def Parse (str : String) (options : Option POptions) : GoRes (List Segment) :=
  let opts := options.getD emptyOptions
  match lexer str with
  | .panicked => .panicked
  | .err m => .err m
  | .ok toks =>
    let pfx := opts.Prefixes.getD "./"
    let delim := escapeString (anyString2 opts.Delimiter "/#?")
    let dfl := "[^" ++ delim ++ "]+?"
    parseLoop toks pfx dfl (toks.length + 1) 0 0 "" []

end PathToRegexp


namespace PathToRegexp

/-!
## Model of the `regexp2` engine

The library delegates matching to `github.com/dlclark/regexp2`, a port of the
.NET regex engine.  We model the dialect fragment the library emits and its
tests exercise: literals, escaped metacharacters, character classes (with
ranges and negation), capturing and `(?:…)` groups, greedy and lazy `* + ?`,
alternation, and the `^`/`$` anchors (no multiline, no newlines in inputs).
Matching is leftmost-first backtracking; a quantified capturing group records
one capture per iteration and `Group.String()` is the last capture, as in
.NET.  Unsupported constructs make compilation fail (`none`), never silently
change meaning.
-/

inductive CItem where
  | single (c : Char)
  | crange (a b : Char)
  deriving DecidableEq, Repr

inductive Reg where
  | eps
  | ch (c : Char)
  | cls (neg : Bool) (items : List CItem)
  | anyc
  | seq (a b : Reg)
  | alt (a b : Reg)
  | grp (i : Nat) (r : Reg)
  | star (lzy : Bool) (r : Reg)
  | plus (lzy : Bool) (r : Reg)
  | quest (lzy : Bool) (r : Reg)
  | bol
  | eol
  deriving DecidableEq, Repr

/-- Number of capturing groups in a regex AST. -/
def Reg.nGroups : Reg → Nat
  | .eps | .ch _ | .cls _ _ | .anyc | .bol | .eol => 0
  | .seq a b | .alt a b => a.nGroups + b.nGroups
  | .grp _ r => r.nGroups + 1
  | .star _ r | .plus _ r | .quest _ r => r.nGroups

/-- Structural size, used only to bound the matcher's recursion depth. -/
def Reg.size : Reg → Nat
  | .eps | .ch _ | .cls _ _ | .anyc | .bol | .eol => 1
  | .seq a b | .alt a b => a.size + b.size + 1
  | .grp _ r => r.size + 1
  | .star _ r | .plus _ r | .quest _ r => r.size + 2

def isAlphaNum (c : Char) : Bool :=
  ('0' ≤ c && c ≤ '9') || ('A' ≤ c && c ≤ 'Z') || ('a' ≤ c && c ≤ 'z')

/-- Character-class parser: after `[` (and optional `^`), read items up to
`]`.  Escaped characters are literal; an alphanumeric escape (a class like
`\d`) is unsupported. -/
def parseClassItems (fuel : Nat) (s : List Char) (acc : List CItem) :
    Option (List CItem × List Char) :=
  match fuel with
  | 0 => none
  | fuel+1 =>
    match s with
    | [] => none
    | ']' :: r => if acc.isEmpty then none else some (acc, r)
    | '\\' :: c :: r =>
      if isAlphaNum c then none else parseClassItems fuel r (acc ++ [.single c])
    | c :: '-' :: d :: r =>
      if d = ']' then parseClassItems fuel ('-' :: d :: r) (acc ++ [.single c])
      else if d = '\\' then
        match r with
        | e :: r2 =>
          if isAlphaNum e then none
          else parseClassItems fuel r2 (acc ++ [.crange c e])
        | [] => none
      else parseClassItems fuel r (acc ++ [.crange c d])
    | c :: r => parseClassItems fuel r (acc ++ [.single c])

/-- Parser modes: alternation level, sequence level, one term, trailing
quantifiers of a parsed atom, or one atom. -/
inductive PMode where
  | palt
  | pseq
  | pterm
  | pquant (a : Reg)
  | patom

/-- Recursive-descent parser for the emitted dialect, as a single
fuel-structural function (so that it reduces definitionally). -/
def parseR (fuel : Nat) (mode : PMode) (s : List Char) (g : Nat) :
    Option (Reg × List Char × Nat) :=
  match fuel with
  | 0 => none
  | fuel+1 =>
    match mode with
    | .palt => do
      let (r1, s1, g1) ← parseR fuel .pseq s g
      match s1 with
      | '|' :: rest => do
        let (r2, s2, g2) ← parseR fuel .palt rest g1
        pure (.alt r1 r2, s2, g2)
      | _ => pure (r1, s1, g1)
    | .pseq =>
      match s with
      | [] => some (.eps, s, g)
      | ')' :: _ => some (.eps, s, g)
      | '|' :: _ => some (.eps, s, g)
      | _ => do
        let (a, s1, g1) ← parseR fuel .pterm s g
        let (b, s2, g2) ← parseR fuel .pseq s1 g1
        pure (.seq a b, s2, g2)
    | .pterm => do
      let (a, s1, g1) ← parseR fuel .patom s g
      parseR fuel (.pquant a) s1 g1
    | .pquant a =>
      -- any number of trailing `*`/`+`/`?` (a following `?` makes it lazy)
      match s with
      | '*' :: '?' :: r => parseR fuel (.pquant (.star true a)) r g
      | '*' :: r => parseR fuel (.pquant (.star false a)) r g
      | '+' :: '?' :: r => parseR fuel (.pquant (.plus true a)) r g
      | '+' :: r => parseR fuel (.pquant (.plus false a)) r g
      | '?' :: '?' :: r => parseR fuel (.pquant (.quest true a)) r g
      | '?' :: r => parseR fuel (.pquant (.quest false a)) r g
      | _ => some (a, s, g)
    | .patom =>
      match s with
      | [] => none
      | '(' :: '?' :: ':' :: rest => do
        let (r, s1, g1) ← parseR fuel .palt rest g
        match s1 with
        | ')' :: s2 => pure (r, s2, g1)
        | _ => none
      | '(' :: '?' :: _ => none
      | '(' :: rest => do
        let (r, s1, g1) ← parseR fuel .palt rest (g+1)
        match s1 with
        | ')' :: s2 => pure (.grp (g+1) r, s2, g1)
        | _ => none
      | '[' :: '^' :: rest => do
        let (items, s1) ← parseClassItems (rest.length + 1) rest []
        pure (.cls true items, s1, g)
      | '[' :: rest => do
        let (items, s1) ← parseClassItems (rest.length + 1) rest []
        pure (.cls false items, s1, g)
      | '\\' :: c :: rest =>
        if isAlphaNum c then none else some (.ch c, rest, g)
      | '\\' :: [] => none
      | '^' :: rest => some (.bol, rest, g)
      | '$' :: rest => some (.eol, rest, g)
      | '.' :: rest => some (.anyc, rest, g)
      | c :: rest =>
        if c = ')' ∨ c = '|' ∨ c = '*' ∨ c = '+' ∨ c = '?' then none
        else some (.ch c, rest, g)

/-- A compiled `regexp2.Regexp`: the pattern source (what `String()`
returns), the case-insensitivity flag, the AST, and the number of capturing
groups. -/
structure Regexp2 where
  source : String
  ign : Bool
  ast : Reg
  groups : Nat
  deriving DecidableEq, Repr

/-- `regexp2.Compile(source, flags)`. -/
def compileRE (src : String) (ign : Bool) : Option Regexp2 :=
  match parseR (4 * src.data.length + 16) .palt src.data 0 with
  | some (r, [], g) => some ⟨src, ign, r, g⟩
  | _ => none

def charEqI (ign : Bool) (a b : Char) : Bool :=
  if ign then a.toLower = b.toLower else a = b

def inRange (a b c : Char) : Bool := a.toNat ≤ c.toNat && c.toNat ≤ b.toNat

def citemMatch (ign : Bool) (c : Char) : CItem → Bool
  | .single d => charEqI ign c d
  | .crange a b =>
    inRange a b c || (ign && (inRange a b c.toLower || inRange a b c.toUpper))

def clsMatch (ign neg : Bool) (items : List CItem) (c : Char) : Bool :=
  let m := items.any (citemMatch ign c)
  if neg then !m else m

/-- Capture log: `(group index, captured characters)` in completion order. -/
abbrev Caps : Type := List (Nat × List Char)

def sliceChars (l : List Char) (a b : Nat) : List Char := (l.take b).drop a

/-- The backtracking matcher in continuation-passing style.  `pos` indexes
into the fixed `input`; the continuation receives the new position and the
capture log; the first success (leftmost-first, with greedy/lazy preference
encoded in the order alternatives are tried) wins, as in a backtracking
.NET-style engine.  `fuel` bounds recursion depth and is never exhausted for
the generous bound used by `findFrom`. -/
def mtch (ign : Bool) (input : List Char) : Nat → Reg → Nat → Caps →
    (Nat → Caps → Option (Nat × Caps)) → Option (Nat × Caps)
  | 0, _, _, _, _ => none
  | fuel+1, r, pos, caps, k =>
    match r with
    | .eps => k pos caps
    | .ch c =>
      match input.get? pos with
      | some d => if charEqI ign c d then k (pos+1) caps else none
      | none => none
    | .cls neg items =>
      match input.get? pos with
      | some d => if clsMatch ign neg items d then k (pos+1) caps else none
      | none => none
    | .anyc =>
      match input.get? pos with
      | some d => if d ≠ '\n' then k (pos+1) caps else none
      | none => none
    | .seq a b => mtch ign input fuel a pos caps (fun p cp => mtch ign input fuel b p cp k)
    | .alt a b =>
      match mtch ign input fuel a pos caps k with
      | some res => some res
      | none => mtch ign input fuel b pos caps k
    | .grp i r1 =>
      mtch ign input fuel r1 pos caps
        (fun p cp => k p (cp ++ [(i, sliceChars input pos p)]))
    | .star lzy r1 =>
      if lzy then
        match k pos caps with
        | some res => some res
        | none =>
          mtch ign input fuel r1 pos caps
            (fun p cp => mtch ign input fuel (.star lzy r1) p cp k)
      else
        match mtch ign input fuel r1 pos caps
            (fun p cp => mtch ign input fuel (.star lzy r1) p cp k) with
        | some res => some res
        | none => k pos caps
    | .plus lzy r1 =>
      mtch ign input fuel r1 pos caps
        (fun p cp => mtch ign input fuel (.star lzy r1) p cp k)
    | .quest lzy r1 =>
      if lzy then
        match k pos caps with
        | some res => some res
        | none => mtch ign input fuel r1 pos caps k
      else
        match mtch ign input fuel r1 pos caps k with
        | some res => some res
        | none => k pos caps
    | .bol => if pos = 0 then k pos caps else none
    | .eol => if pos = input.length then k pos caps else none

def matchFuel (r : Reg) (input : List Char) : Nat :=
  (r.size + 4) * (input.length + 4)

/-- Try a match anchored at position `start`. -/
def tryAt (re : Regexp2) (input : List Char) (start : Nat) :
    Option (Nat × Caps) :=
  mtch re.ign input (matchFuel re.ast input) re.ast start []
    (fun p cp => some (p, cp))

/-- A regexp2 `Match`: start index, one-past-end index, capture log, the
input, and the regex's group count. -/
structure GoMatch where
  index : Nat
  stop : Nat
  caps : List (Nat × String)
  input : String
  groups : Nat
  deriving DecidableEq, Repr

def findFrom (re : Regexp2) (input : List Char) (fuel start : Nat) :
    Option (Nat × Nat × Caps) :=
  match fuel with
  | 0 => none
  | fuel+1 =>
    if start > input.length then none
    else
      match tryAt re input start with
      | some (e, cp) => some (start, e, cp)
      | none => findFrom re input fuel (start+1)

/-- `re.FindStringMatch(s)`: leftmost match (earliest start position). -/
def findStringMatch (re : Regexp2) (s : String) : Option GoMatch :=
  match findFrom re s.data (s.data.length + 2) 0 with
  | none => none
  | some (st, e, cp) =>
    some ⟨st, e, cp.map (fun p => (p.1, String.mk p.2)), s, re.groups⟩

/-- `m.GroupCount()`: number of groups including group 0. -/
def GoMatch.groupCount (m : GoMatch) : Nat := m.groups + 1

/-- `m.Groups()[0].String()`: the overall matched text. -/
def GoMatch.path (m : GoMatch) : String :=
  String.mk (sliceChars m.input.data m.index m.stop)

/-- `m.Groups()[i].Captures` for `i ≥ 1`. -/
def GoMatch.captures (m : GoMatch) (i : Nat) : List String :=
  (m.caps.filter (fun p => p.1 = i)).map (fun p => p.2)

/-- `m.Groups()[i].String()`: the last capture (empty if none). -/
def GoMatch.groupString (m : GoMatch) (i : Nat) : String :=
  ((m.captures i).getLast?).getD ""

/-- `re.MatchString(s)`: whether a match exists anywhere. -/
def matchString (re : Regexp2) (s : String) : Bool :=
  (findStringMatch re s).isSome

end PathToRegexp


namespace PathToRegexp

/-!
## Regex builder (`tokensToRegExp`), matcher (`regexpToFunction`) and path
compiler (`tokensToFunction`)
-/

/-- The route contribution of a literal segment (`encode` = identity). -/
def litRoute (s : String) : String := escapeString s

/-- The route contribution of a `Token` segment (`encode` = identity): the
Token branch of `tokensToRegExp`'s loop. -/
def tokenRoute (token : Token) : String :=
  let pre := escapeString token.Prefix
  let suf := escapeString token.Suffix
  if token.Pattern ≠ "" then
    if pre ≠ "" ∨ suf ≠ "" then
      if token.Modifier = "+" ∨ token.Modifier = "*" then
        let mod := if token.Modifier = "*" then "?" else ""
        "(?:" ++ pre ++ "((?:" ++ token.Pattern ++ ")" ++
          "(?:" ++ suf ++ pre ++ "(?:" ++ token.Pattern ++ "))" ++
          "*)" ++ suf ++ ")" ++ mod
      else
        "(?:" ++ pre ++ "(" ++ token.Pattern ++ ")" ++ "" ++ suf ++ ")" ++
          token.Modifier
    else
      "(" ++ token.Pattern ++ ")" ++ token.Modifier
  else
    "(?:" ++ pre ++ suf ++ ")" ++ token.Modifier

/-- The loop of `tokensToRegExp`: extend the route string and the out-token
list with each raw segment. -/
def routeLoop (rawTokens : List Segment) (route : String)
    (out : Option (List Token)) : String × Option (List Token) :=
  match rawTokens with
  | [] => (route, out)
  | .lit s :: rest => routeLoop rest (route ++ litRoute s) out
  | .tok token :: rest =>
    let out1 :=
      if token.Pattern ≠ "" then out.map (fun l => l ++ [token]) else out
    routeLoop rest (route ++ tokenRoute token) out1

/-- Go's `str[len(str)-1:]` on the (never-empty, ASCII in all uses) final
literal: its last character as a string. -/
def lastCharStr (s : String) : String :=
  match s.data.getLast? with
  | some c => c.toString
  | none => ""

/-- `tokensToRegExp`: build the route regex from parsed segments, appending
the `Token` segments with patterns to the out list (`encode` = identity). -/
def tokensToRegExp (rawTokens : List Segment) (tokens : Option (List Token))
    (options : Option POptions) : GoRes (Regexp2 × Option (List Token)) :=
  let opts := options.getD emptyOptions
  let strict := opts.Strict
  let start := opts.Start.getD true
  let endB := opts.End.getD true
  let endsWith := if opts.EndsWith ≠ "" then "[" ++ escapeString opts.EndsWith ++ "]|$" else "$"
  let delimiter := "[" ++ escapeString (anyString2 opts.Delimiter "/#?") ++ "]"
  let route0 := if start then "^" else ""
  let ro := routeLoop rawTokens route0 tokens
  let route1 :=
    if endB then
      let r1 := if ¬ strict then ro.1 ++ delimiter ++ "?" else ro.1
      r1 ++ (if opts.EndsWith = "" then "$" else "(?=" ++ endsWith ++ ")")
    else
      let isEndDelimited : Bool :=
        match rawTokens.getLast? with
        | none => true
        | some (.lit s) => decide (goIndex delimiter (lastCharStr s) > -1)
        | some (.tok _) => false
      let r1 := if ¬ strict then ro.1 ++ "(?:" ++ delimiter ++ "(?=" ++ endsWith ++ "))?" else ro.1
      if !isEndDelimited then r1 ++ "(?=" ++ delimiter ++ "|" ++ endsWith ++ ")" else r1
  match compileRE route1 (!opts.Sensitive) with
  | some re => .ok (re, ro.2)
  | none => .err ("error parsing regexp: " ++ route1)

/-- A parameter value in a `MatchResult`: a scalar or a repeated list. -/
inductive PVal where
  | s (v : String)
  | arr (vs : List String)
  deriving DecidableEq, Repr

/-- Go-map assignment on an association list: overwrite or append. -/
def mapSet (l : List (TokName × PVal)) (k : TokName) (v : PVal) :
    List (TokName × PVal) :=
  if l.any (fun p => p.1 = k) then
    l.map (fun p => if p.1 = k then (k, v) else p)
  else l ++ [(k, v)]

def mapGetP (l : List (TokName × PVal)) (k : TokName) : Option PVal :=
  (l.find? (fun p => p.1 = k)).map (fun p => p.2)

structure MatchResult where
  Path : String
  Index : Nat
  Params : List (TokName × PVal)
  deriving DecidableEq, Repr

/-- The group loop of `regexpToFunction`'s closure (`decode` = the default,
which returns the string unchanged and never errors). -/
def matchParams (m : GoMatch) (tokens : List Token) (fuel i : Nat)
    (params : List (TokName × PVal)) : GoRes (List (TokName × PVal)) :=
  match fuel with
  | 0 => .panicked
  | fuel+1 =>
    if i < m.groupCount then
      if (m.captures i).length = 0 then matchParams m tokens fuel (i+1) params
      else
        match tokens.get? (i-1) with
        | none => .panicked
        | some token =>
          let matchedStr := m.groupString i
          if token.Modifier = "*" ∨ token.Modifier = "+" then
            let arr := goSplit matchedStr (token.Prefix ++ token.Suffix)
            if arr.length > 0 then
              matchParams m tokens fuel (i+1) (mapSet params token.Name (.arr arr))
            else matchParams m tokens fuel (i+1) params
          else
            matchParams m tokens fuel (i+1) (mapSet params token.Name (.s matchedStr))
    else .ok params

/-- `regexpToFunction`: the match closure produced by `Match`. -/
def regexpToFunction (re : Regexp2) (tokens : List Token) (pathname : String) :
    GoRes (Option MatchResult) :=
  match findStringMatch re pathname with
  | none => .ok none
  | some m =>
    match matchParams m tokens (m.groupCount + 1) 1 [] with
    | .panicked => .panicked
    | .err e => .err e
    | .ok params => .ok (some ⟨m.path, m.index, params⟩)

/-- A value in the data map passed to a render function.  (The Go code also
accepts `float64` scalars and coerces arbitrary slice elements with
`fmt.Sprintf("%v", …)`; the claims only use strings, ints and string
slices.) -/
inductive RVal where
  | vstr (s : String)
  | vint (n : Int)
  | varr (l : List String)
  deriving DecidableEq, Repr

/-- The `data` argument of a render function: Go `nil`, a non-map value
(e.g. a plain string or int), or a map. -/
inductive RData where
  | rnil
  | rother
  | rmap (entries : List (TokName × RVal))
  deriving DecidableEq, Repr

def fmtName : TokName → String
  | .str s => s
  | .idx n => toString n

def mapGetR (l : List (TokName × RVal)) (k : TokName) : Option RVal :=
  (l.find? (fun p => p.1 = k)).map (fun p => p.2)

/-- `data[token.Name]`, with the int-key fallback to its decimal string. -/
def lookupValue (entries : List (TokName × RVal)) (name : TokName) :
    Option RVal :=
  match mapGetR entries name with
  | some v => some v
  | none =>
    match name with
    | .idx n => mapGetR entries (.str (toString n))
    | .str _ => none

/-- The per-element loop for a repeated value: encode (identity), validate,
and append `Prefix + segment + Suffix` for each element. -/
def renderArr (token : Token) (re : Option Regexp2) (validate : Bool) :
    List String → GoRes String
  | [] => .ok ""
  | v :: rest =>
    let seg := v
    let okB : Bool := match re with | some r => matchString r seg | none => false
    if validate && !okB then
      .err ("expected all \"" ++ fmtName token.Name ++ "\" to match \"" ++
        token.Pattern ++ "\"")
    else do
      let tail ← renderArr token re validate rest
      pure (token.Prefix ++ seg ++ token.Suffix ++ tail)

/-- The body of the render closure for one `Token` segment: `.ok none`
means the optional parameter is skipped silently, `.ok (some s)` is this
segment's contribution to the path (`encode` = identity). -/
def renderTokenSeg (token : Token) (re : Option Regexp2) (validate : Bool)
    (data : RData) : GoRes (Option String) :=
  let optional := token.Modifier = "?" ∨ token.Modifier = "*"
  let repeats := token.Modifier = "*" ∨ token.Modifier = "+"
  let fallthru : GoRes (Option String) :=
    if optional then .ok none
    else
      .err ("expected \"" ++ fmtName token.Name ++ "\" to be " ++
        (if repeats then "an array" else "a string"))
  let scalar : String → GoRes (Option String) := fun v =>
    let seg := v
    let okB : Bool := match re with | some r => matchString r seg | none => false
    if validate && !okB then
      .err ("expected \"" ++ fmtName token.Name ++ "\" to match \"" ++
        token.Pattern ++ "\", but got \"" ++ seg ++ "\"")
    else .ok (some (token.Prefix ++ seg ++ token.Suffix))
  match data with
  | .rmap entries =>
    match lookupValue entries token.Name with
    | some (.varr l) =>
      if ¬ repeats then
        .err ("expected \"" ++ fmtName token.Name ++
          "\" to not repeat, but got array")
      else if l.length = 0 then
        if optional then .ok none
        else .err ("expected \"" ++ fmtName token.Name ++ "\" to not be empty")
      else GoRes.map some (renderArr token re validate l)
    | some (.vstr s) => scalar s
    | some (.vint n) => scalar (toString n)
    | none => fallthru
  | _ => fallthru

/-- The render loop of `tokensToFunction`'s closure, over segments zipped
with their precompiled validation regexes. -/
def renderLoop (pairs : List (Segment × Option Regexp2)) (validate : Bool)
    (data : RData) : GoRes String :=
  match pairs with
  | [] => .ok ""
  | (.lit s, _) :: rest => do
    let tail ← renderLoop rest validate data
    pure (s ++ tail)
  | (.tok token, re) :: rest =>
    match renderTokenSeg token re validate data with
    | .panicked => .panicked
    | .err e => .err e
    | .ok c => do
      let tail ← renderLoop rest validate data
      pure (c.getD "" ++ tail)

/-- Precompile `^(?:Pattern)$` for every `Token` segment. -/
def buildMatches (tokens : List Segment) (ign : Bool) :
    GoRes (List (Option Regexp2)) :=
  match tokens with
  | [] => .ok []
  | .lit _ :: rest => do
    let tail ← buildMatches rest ign
    pure (none :: tail)
  | .tok t :: rest =>
    match compileRE ("^(?:" ++ t.Pattern ++ ")$") ign with
    | none => .err ("error parsing regexp: " ++ t.Pattern)
    | some re => do
      let tail ← buildMatches rest ign
      pure (some re :: tail)

/-- `tokensToFunction`: build the render closure. -/
def tokensToFunction (tokens : List Segment) (options : Option POptions) :
    GoRes (RData → GoRes String) :=
  let opts := options.getD emptyOptions
  let ign := !opts.Sensitive
  let validate := opts.Validate.getD true
  match buildMatches tokens ign with
  | .panicked => .panicked
  | .err e => .err e
  | .ok ms => .ok (fun data => renderLoop (tokens.zip ms) validate data)

/-- `Compile`. -/
def Compile (str : String) (options : Option POptions) :
    GoRes (RData → GoRes String) := do
  let tokens ← Parse str options
  tokensToFunction tokens options

/-- The token-extraction scan of `regexpToRegexp`: `tokenRegexp` is
`\((?!\?)`, so each match is one `(` not immediately followed by `?`, and
each match contributes `GroupCount() = 1` (group 0 only). -/
def tokenRegexpCount : List Char → Nat
  | [] => 0
  | c :: rest =>
    if c = '(' ∧ rest.head? ≠ some '?' then 1 + tokenRegexpCount rest
    else tokenRegexpCount rest

/-- The placeholder token appended for index `i`. -/
def placeholderToken (i : Nat) : Token := ⟨.idx i, "", "", "", ""⟩

/-- `regexpToRegexp`: pull placeholder tokens out of a pre-built regexp. -/
def regexpToRegexp (re : Regexp2) (tokens : Option (List Token)) :
    Regexp2 × Option (List Token) :=
  match tokens with
  | none => (re, none)
  | some l =>
    let totalGroupCount := tokenRegexpCount re.source.data
    (re, some (l ++ (List.range totalGroupCount).map placeholderToken))

/-- `stringToRegexp`. -/
def stringToRegexp (path : String) (tokens : Option (List Token))
    (options : Option POptions) : GoRes (Regexp2 × Option (List Token)) := do
  let parsedTokens ← Parse path options
  tokensToRegExp parsedTokens tokens options

/-- The `path` argument of `PathToRegexp`: a pattern string or a pre-built
regexp.  (The array case composes sub-results by alternation; no claim
exercises it.) -/
inductive PathArg where
  | str (s : String)
  | re (r : Regexp2)

/-- `PathToRegexp`. -/
def PathToRegexp (path : PathArg) (tokens : Option (List Token))
    (options : Option POptions) : GoRes (Regexp2 × Option (List Token)) :=
  match path with
  | .re r => .ok (regexpToRegexp r tokens)
  | .str s => stringToRegexp s tokens options

/-- `Match`: build the match closure. -/
def Match (path : PathArg) (options : Option POptions) :
    GoRes (String → GoRes (Option MatchResult)) := do
  let rt ← PathToRegexp path (some []) options
  pure (regexpToFunction rt.1 (rt.2.getD []))

end PathToRegexp








namespace PathToRegexp

/-!
## Supporting definitions for the theorems
-/

/-- Escape-aware scan of a regex source string for a capturing group: an
unescaped `(` not immediately followed by `?`. -/
def strHasCapture : List Char → Bool
  | [] => false
  | c :: rest =>
    if c = '\\' then
      match rest with
      | [] => false
      | _ :: r2 => strHasCapture r2
    else if c = '(' then
      match rest with
      | '?' :: _ => strHasCapture rest
      | _ => true
    else strHasCapture rest

/-- Whether a suffix of the source starts with a `(` that is not immediately
followed by `?`. -/
def isParenStart : List Char → Bool
  | [] => false
  | c :: r => decide (c = '(') && decide (r.head? ≠ some '?')

/-- Specification-side count: the number of occurrences of `(` not
immediately followed by `?`, counted over all suffixes. -/
def parenSpecCount (s : List Char) : Nat := s.tails.countP isParenStart

/-- A segment that renders nothing when its value is absent: a literal, or a
parameter with an optional modifier (`?` or `*`). -/
def segOptionalB : Segment → Bool
  | .lit _ => true
  | .tok t => t.Modifier = "?" || t.Modifier = "*"

/-- The concatenation of the literal segments of a zipped segment list. -/
def concatLits : List (Segment × Option Regexp2) → String
  | [] => ""
  | (.lit s, _) :: rest => s ++ concatLits rest
  | (.tok _, _) :: rest => concatLits rest

end PathToRegexp

namespace PathToRegexp

/-!
## Helper lemmas
-/

theorem escapeChars_eq_nil_iff (l : List Char) : escapeChars l = [] ↔ l = [] := by
  cases l with
  | nil => simp [escapeChars]
  | cons c t =>
    by_cases h : c ∈ escapeSet <;> simp [escapeChars, h]

theorem escapeString_eq_empty_iff (s : String) : escapeString s = "" ↔ s = "" := by
  rw [String.ext_iff, String.ext_iff]
  show escapeChars s.data = ("" : String).data ↔ _
  simp [escapeChars_eq_nil_iff]

theorem backslash_mem_escapeSet : '\\' ∈ escapeSet := by decide

theorem lparen_mem_escapeSet : '(' ∈ escapeSet := by decide

/-- Scanning past the escaped image of any string never finds a capture. -/
theorem strHasCapture_escape_append (l rest : List Char) :
    strHasCapture (escapeChars l ++ rest) = strHasCapture rest := by
  induction l with
  | nil => rfl
  | cons c t ih =>
    by_cases h : c ∈ escapeSet
    · have he : escapeChars (c :: t) ++ rest = '\\' :: c :: (escapeChars t ++ rest) := by
        simp [escapeChars, h]
      rw [he]
      show strHasCapture (escapeChars t ++ rest) = _
      exact ih
    · have he : escapeChars (c :: t) ++ rest = c :: (escapeChars t ++ rest) := by
        simp [escapeChars, h]
      have hc1 : c ≠ '\\' := fun e => h (e ▸ backslash_mem_escapeSet)
      have hc2 : c ≠ '(' := fun e => h (e ▸ lparen_mem_escapeSet)
      rw [he, strHasCapture.eq_def]
      simp only [if_neg hc1, if_neg hc2]
      exact ih

theorem tokenRegexpCount_eq_parenSpecCount (s : List Char) :
    tokenRegexpCount s = parenSpecCount s := by
  induction s with
  | nil => rfl
  | cons c t ih =>
    rw [parenSpecCount] at ih
    by_cases h : c = '(' ∧ t.head? ≠ some '?'
    · have hp : isParenStart (c :: t) = true := by
        simp [isParenStart, h.1, h.2]
      simp [tokenRegexpCount, if_pos h, parenSpecCount, List.tails_cons,
        List.countP_cons, hp]
      omega
    · have hp : isParenStart (c :: t) = false := by
        simp only [isParenStart, Bool.and_eq_false_iff, decide_eq_false_iff_not]
        by_cases hc : c = '('
        · right
          intro hq
          exact h ⟨hc, hq⟩
        · left
          exact hc
      simp [tokenRegexpCount, if_neg h, parenSpecCount, List.tails_cons,
        List.countP_cons, hp]
      omega

end PathToRegexp

namespace PathToRegexp

/-!
## Claim theorems
-/

set_option maxRecDepth 100000

/-- Claim C2, counterexample: `Parse "/user/:id"` does not return a token
whose pattern is character-for-character `[^/#?]+?` — the default pattern has
its delimiter characters regex-escaped. -/
theorem parse_user_id_counterexample :
    ¬ (Parse "/user/:id" none =
      .ok [.lit "/user", .tok ⟨.str "id", "/", "", "[^/#?]+?", ""⟩]) := by
  decide

/-- Claim C2, amended: `Parse "/user/:id"` with nil options returns exactly
the two-element sequence `["/user", Token{Name:"id", Prefix:"/", Suffix:"",
Pattern:"[^\/#\?]+?", Modifier:""}]` — the default pattern escapes the
delimiter characters (Go source literal `"[^\\/#\\?]+?"`). -/
theorem parse_user_id :
    Parse "/user/:id" none =
      .ok [.lit "/user", .tok ⟨.str "id", "/", "", "[^\\/#\\?]+?", ""⟩] := by
  decide

/-- Claim C4: the lexer rejects malformed pattern groups with the specified
error at the specified offset: inside a pattern scan, a nested `(` not
immediately followed by `?` yields the capturing-groups error at that inner
position (for any input and position); a `(` whose first body character is
`?` yields the cannot-start-with-`?` error at that position (for any input
and position); and on the claim's concrete inputs, Parse reports the nested
capturing group at 9, the `?` start at 6, the unbalanced pattern at the
opening `(` offset 5, and the missing pattern at the opening `(` offset
5. -/
theorem lexer_error_reporting :
    (∀ (arr : List Char) (fuel count : Nat) (pat : String) (j : Nat) (d : Char),
      arr.get? j = some '(' → arr.get? (j+1) = some d → d ≠ '?' →
      scanPattern arr (fuel+1) count pat j =
        .err ("capturing groups are not allowed at " ++ toString j)) ∧
    (∀ (arr : List Char) (fuel i : Nat) (acc : List LexToken),
      arr.get? i = some '(' → arr.get? (i+1) = some '?' →
      lexLoop arr (fuel+1) i acc =
        .err ("pattern cannot start with \"?\" at " ++ toString (i+1))) ∧
    Parse "/:foo(\\d+(\\.\\d+)?)" none =
        .err "capturing groups are not allowed at 9" ∧
    Parse "/:foo(?:\\d+(\\.\\d+)?)" none =
        .err "pattern cannot start with \"?\" at 6" ∧
    Parse "/:foo(abc" none = .err "unbalanced pattern at 5" ∧
    Parse "/:foo()" none = .err "missing pattern at 5" := by
  refine ⟨?_, ?_, by decide, by decide, by decide, by decide⟩
  · intro arr fuel count pat j d h1 h2 h3
    rw [List.get?_eq_getElem?] at h1 h2
    rw [scanPattern.eq_def]
    simp [h1, h2, h3]
  · intro arr fuel i acc h1 h2
    rw [List.get?_eq_getElem?] at h1 h2
    rw [lexLoop.eq_def]
    simp [h1, h2, lbrace, rbrace]

/-- Claim C4, witness: the two general error lemmas at concrete inputs. -/
theorem lexer_error_reporting_witness :
    scanPattern "ab(c".data (0+1) 1 "" 2 =
        .err "capturing groups are not allowed at 2" ∧
      lexLoop "(?x".data (0+1) 0 [] =
        .err "pattern cannot start with \"?\" at 1" := by
  constructor
  · exact lexer_error_reporting.1 "ab(c".data 0 1 "" 2 'c' (by decide)
      (by decide) (by decide)
  · exact lexer_error_reporting.2.1 "(?x".data 0 0 [] (by decide) (by decide)

/-- Claim C5, failing inputs: the lexer indexes `arr[i+1]` without a bounds
check, so a pattern ending in `\` (and likewise one ending in an unclosed
`(`) drives it out of bounds — modelled as `GoRes.panicked` — instead of
returning an error value as the claim requires. -/
theorem lexer_panics_on_dangling_escape :
    lexer "\\" = .panicked ∧
      Parse "\\" none = .panicked ∧
      Parse "abc(" none = .panicked := by
  refine ⟨by decide, by decide, by decide⟩

/-- Claim C6: for `/:test?`, rendering with nil data yields the empty
string; matching `/` succeeds with an empty params map (the parameter is
absent, not mapped to `""`); matching `/foo` binds `test` to `"foo"`. -/
theorem optional_param_examples :
    (Compile "/:test?" none).bind (fun f => f .rnil) = .ok "" ∧
      (Match (.str "/:test?") none).bind (fun f => f "/") =
        .ok (some ⟨"/", 0, []⟩) ∧
      (Match (.str "/:test?") none).bind (fun f => f "/foo") =
        .ok (some ⟨"/foo", 0, [(.str "test", .s "foo")]⟩) := by
  refine ⟨by decide, by decide, by decide⟩

/-- Claim C7: for `/:seg+`, rendering `{seg: ["a","b","c"]}` yields
`/a/b/c` (each element validated and prefixed with `/`), and matching
`/a/b/c` recovers the ordered list `["a","b","c"]` by splitting the captured
substring on prefix+suffix. -/
theorem repeated_param_examples :
    (Compile "/:seg+" none).bind
        (fun f => f (.rmap [(.str "seg", .varr ["a","b","c"])])) =
      .ok "/a/b/c" ∧
      (Match (.str "/:seg+") none).bind (fun f => f "/a/b/c") =
        .ok (some ⟨"/a/b/c", 0, [(.str "seg", .arr ["a","b","c"])]⟩) := by
  refine ⟨by decide, by decide⟩

/-- Claim C1, counterexample: the round trip fails for the valid pattern
`:x+` with the valid value map `{x: ["ab"]}` — rendering succeeds (with
validation on) and yields `"ab"`, but matching `"ab"` back yields
`{x: ["b"]}` (the repeated group's last capture, split on the empty
prefix+suffix), not `{x: ["ab"]}`. -/
theorem compile_match_roundtrip_counterexample :
    (Compile ":x+" none).bind
        (fun f => f (.rmap [(.str "x", .varr ["ab"])])) = .ok "ab" ∧
      (Match (.str ":x+") none).bind (fun f => f "ab") =
        .ok (some ⟨"ab", 0, [(.str "x", .arr ["b"])]⟩) ∧
      PVal.arr ["b"] ≠ PVal.arr ["ab"] := by
  refine ⟨by decide, by decide, by decide⟩

/-- Claim C1, amended: `Match(P)(Compile(P)(V))` succeeds and round-trips the
parameter values when every parameter occurrence in the rendered path is
unambiguously delimited — verified for `P = "/user/:id"`, `V = {id:"123"}`
and `P = "/:seg+"`, `V = {seg:["a","b","c"]}`; it fails when a repeated
parameter's prefix+suffix separator is empty (see the counterexample). -/
theorem compile_match_roundtrip_examples :
    (Compile "/user/:id" none).bind
        (fun f => f (.rmap [(.str "id", .vstr "123")])) = .ok "/user/123" ∧
      (Match (.str "/user/:id") none).bind (fun f => f "/user/123") =
        .ok (some ⟨"/user/123", 0, [(.str "id", .s "123")]⟩) ∧
      (Compile "/:seg+" none).bind
        (fun f => f (.rmap [(.str "seg", .varr ["a","b","c"])])) =
        .ok "/a/b/c" ∧
      (Match (.str "/:seg+") none).bind (fun f => f "/a/b/c") =
        .ok (some ⟨"/a/b/c", 0, [(.str "seg", .arr ["a","b","c"])]⟩) := by
  refine ⟨by decide, by decide, by decide, by decide⟩

/-- Claim C8, counterexample: `regexpToRegexp` does not count capturing
groups — it counts occurrences of `(` not followed by `?` in the source
text.  For the regex compiled from `a\(b`, which has zero capturing groups,
one placeholder token is nevertheless appended. -/
theorem regexpToRegexp_counterexample :
    (compileRE "a\\(b" true).map
        (fun re => (re.ast.nGroups, (regexpToRegexp re (some [])).2)) =
      some (0, some [⟨.idx 0, "", "", "", ""⟩]) := by
  decide

end PathToRegexp

namespace PathToRegexp

/-- Claim C3: for a Parameter with non-empty pattern, if the modifier is `+`
or `*` and the (escaped) prefix or suffix is non-empty, the builder emits
`(?:pre((?:pat)(?:suf pre(?:pat))*)suf)` with a trailing `?` exactly when
the modifier is `*`; with both prefix and suffix empty it emits
`(pat)` + modifier; and for an empty pattern it emits the non-capturing
`(?:pre suf)` + modifier, containing no capturing group. -/
theorem tokenRoute_spec (t : Token) :
    (t.Pattern ≠ "" → (t.Modifier = "+" ∨ t.Modifier = "*") →
      (t.Prefix ≠ "" ∨ t.Suffix ≠ "") →
      tokenRoute t =
        "(?:" ++ escapeString t.Prefix ++ "((?:" ++ t.Pattern ++ ")" ++
          "(?:" ++ escapeString t.Suffix ++ escapeString t.Prefix ++
          "(?:" ++ t.Pattern ++ "))" ++ "*)" ++ escapeString t.Suffix ++ ")" ++
          (if t.Modifier = "*" then "?" else "")) ∧
    (t.Pattern ≠ "" → t.Prefix = "" → t.Suffix = "" →
      tokenRoute t = "(" ++ t.Pattern ++ ")" ++ t.Modifier) ∧
    (t.Pattern = "" →
      tokenRoute t =
        "(?:" ++ escapeString t.Prefix ++ escapeString t.Suffix ++ ")" ++
          t.Modifier ∧
      ((t.Modifier = "" ∨ t.Modifier = "?" ∨ t.Modifier = "*" ∨
          t.Modifier = "+") →
        strHasCapture (tokenRoute t).data = false)) := by
  refine ⟨?_, ?_, ?_⟩
  · intro hp hmod hps
    have hpre : escapeString t.Prefix ≠ "" ∨ escapeString t.Suffix ≠ "" := by
      rcases hps with h | h
      · exact Or.inl (fun e => h ((escapeString_eq_empty_iff _).1 e))
      · exact Or.inr (fun e => h ((escapeString_eq_empty_iff _).1 e))
    simp only [tokenRoute, if_pos hp, if_pos hpre, if_pos hmod]
  · intro hp h1 h2
    have hpre : ¬ (escapeString t.Prefix ≠ "" ∨ escapeString t.Suffix ≠ "") := by
      rw [h1, h2]
      simp [escapeString_eq_empty_iff]
    simp only [tokenRoute, if_pos hp, if_neg hpre]
  · intro hp
    have hnp : ¬ (t.Pattern ≠ "") := by simp [hp]
    constructor
    · simp only [tokenRoute, if_neg hnp]
    · intro hm
      have he : tokenRoute t =
          "(?:" ++ escapeString t.Prefix ++ escapeString t.Suffix ++ ")" ++
            t.Modifier := by
        simp only [tokenRoute, if_neg hnp]
      rw [he]
      have hdata :
          ("(?:" ++ escapeString t.Prefix ++ escapeString t.Suffix ++ ")" ++
              t.Modifier).data =
            '(' :: '?' :: ':' ::
              (escapeChars t.Prefix.data ++
                (escapeChars t.Suffix.data ++ (')' :: t.Modifier.data))) := by
        simp [String.data_append, escapeString, List.append_assoc]
      rw [hdata]
      rw [strHasCapture.eq_def]
      simp
      rw [strHasCapture.eq_def]
      simp
      rw [strHasCapture.eq_def]
      simp
      rw [strHasCapture_escape_append, strHasCapture_escape_append]
      rw [strHasCapture.eq_def]
      simp
      rcases hm with h | h | h | h <;> rw [h] <;> decide

/-- Claim C3, witness: the three shapes at concrete tokens. -/
theorem tokenRoute_spec_witness :
    tokenRoute ⟨.str "a", "/", "", "x", "*"⟩ =
        "(?:\\/((?:x)(?:\\/(?:x))*))?" ∧
      tokenRoute ⟨.str "a", "", "", "x", "?"⟩ = "(x)?" ∧
      tokenRoute ⟨.str "b", "/", "", "", "?"⟩ = "(?:\\/)?" ∧
      strHasCapture (tokenRoute ⟨.str "b", "/", "", "", "?"⟩).data = false := by
  refine ⟨?_, ?_, ?_, ?_⟩
  · rw [(tokenRoute_spec ⟨.str "a", "/", "", "x", "*"⟩).1 (by decide)
      (Or.inr rfl) (Or.inl (by decide))]
    decide
  · rw [(tokenRoute_spec ⟨.str "a", "", "", "x", "?"⟩).2.1 (by decide) rfl rfl]
    decide
  · rw [((tokenRoute_spec ⟨.str "b", "/", "", "", "?"⟩).2.2 rfl).1]
    decide
  · exact ((tokenRoute_spec ⟨.str "b", "/", "", "", "?"⟩).2.2 rfl).2
      (Or.inr (Or.inl rfl))

/-- Claim C8, amended: for a pre-built regex passed with a non-nil token
list, the returned regex is the input itself and exactly one placeholder
token — Name the 0-based index, all other fields empty — is appended per
occurrence of `(` not immediately followed by `?` in the regex source text
(this equals the capturing-group count only when every such `(` opens a
capturing group, which escaped parentheses break). -/
theorem regexpToRegexp_appends_per_paren (re : Regexp2) (l : List Token) :
    regexpToRegexp re (some l) =
      (re, some (l ++ (List.range (parenSpecCount re.source.data)).map
        (fun i => ⟨.idx i, "", "", "", ""⟩))) := by
  simp [regexpToRegexp, tokenRegexpCount_eq_parenSpecCount, placeholderToken]

end PathToRegexp

namespace PathToRegexp

theorem string_empty_append (s : String) : "" ++ s = s := by
  cases s with
  | mk l => rw [String.ext_iff]; simp

/-- Claim C9: in the match closure, a repeated parameter (modifier `+` or
`*`) whose prefix and suffix are both empty has its captured substring split
on the empty string, so the recovered params list is the sequence of
individual characters of the captured text (one single-character string per
character), not a single element. -/
theorem match_empty_separator_splits_chars (m : GoMatch) (tokens : List Token)
    (fuel i : Nat) (params : List (TokName × PVal)) (token : Token)
    (h1 : i < m.groupCount) (h2 : ¬ (m.captures i).length = 0)
    (h3 : tokens.get? (i-1) = some token)
    (h4 : token.Modifier = "*" ∨ token.Modifier = "+")
    (h5 : token.Prefix = "") (h6 : token.Suffix = "")
    (h7 : m.groupString i ≠ "") :
    matchParams m tokens (fuel+1) i params =
      matchParams m tokens fuel (i+1)
        (mapSet params token.Name
          (.arr ((m.groupString i).data.map (fun c => String.mk [c])))) := by
  have hsep : token.Prefix ++ token.Suffix = "" := by
    rw [h5, h6]
    rfl
  have hdata : (m.groupString i).data ≠ [] := by
    intro e
    exact h7 (String.ext e)
  have hsplit : goSplit (m.groupString i) (token.Prefix ++ token.Suffix) =
      (m.groupString i).data.map (fun c => String.mk [c]) := by
    rw [hsep]
    simp [goSplit, goSplitChars]
  have hlen : (goSplit (m.groupString i) (token.Prefix ++ token.Suffix)).length > 0 := by
    rw [hsplit]
    simpa using List.length_pos.mpr hdata
  rw [matchParams.eq_def]
  rw [hsplit] at hlen
  simp only [if_pos h1, if_neg h2, h3, if_pos h4, hsplit, if_pos hlen]

/-- Claim C9, witness: a two-character capture with empty prefix+suffix is
recovered as two single-character strings. -/
theorem match_empty_separator_splits_chars_witness :
    matchParams ⟨0, 2, [(1, "ab")], "ab", 1⟩
        [⟨.str "x", "", "", "[a-z]+", "+"⟩] (4+1) 1 [] =
      .ok [(.str "x", .arr ["a", "b"])] := by
  rw [match_empty_separator_splits_chars ⟨0, 2, [(1, "ab")], "ab", 1⟩
    [⟨.str "x", "", "", "[a-z]+", "+"⟩] 4 1 [] ⟨.str "x", "", "", "[a-z]+", "+"⟩
    (by decide) (by decide) (by decide) (by decide) rfl rfl (by decide)]
  decide

end PathToRegexp

namespace PathToRegexp

/-- For nil or non-map data, a token segment renders as: skipped when
optional, otherwise the `expected … to be a string`/`an array` error — with
no value lookup. -/
theorem renderTokenSeg_nonmap (token : Token) (re : Option Regexp2)
    (validate : Bool) (data : RData) (hd : data = .rnil ∨ data = .rother) :
    renderTokenSeg token re validate data =
      if token.Modifier = "?" ∨ token.Modifier = "*" then .ok none
      else
        .err ("expected \"" ++ fmtName token.Name ++ "\" to be " ++
          (if token.Modifier = "*" ∨ token.Modifier = "+" then "an array"
            else "a string")) := by
  rcases hd with h | h <;> subst h <;> rfl

/-- Claim C10: when the render closure is given data that is nil or not a
map, no parameter lookup happens: literal segments are still appended, every
parameter with modifier `?` or `*` is skipped silently, and the first
parameter with modifier `""` or `+` fails the render with the
`expected … to be a string` (resp. `an array`) error. -/
theorem render_nonmap_behavior (validate : Bool) (data : RData)
    (hd : data = .rnil ∨ data = .rother) :
    (∀ pairs : List (Segment × Option Regexp2),
      (∀ p ∈ pairs, segOptionalB p.1 = true) →
      renderLoop pairs validate data = .ok (concatLits pairs)) ∧
    (∀ (pre : List (Segment × Option Regexp2)) (t0 : Token)
        (re0 : Option Regexp2) (rest : List (Segment × Option Regexp2)),
      (∀ p ∈ pre, segOptionalB p.1 = true) →
      segOptionalB (Segment.tok t0) = false →
      renderLoop (pre ++ (Segment.tok t0, re0) :: rest) validate data =
        .err ("expected \"" ++ fmtName t0.Name ++ "\" to be " ++
          (if t0.Modifier = "*" ∨ t0.Modifier = "+" then "an array"
            else "a string"))) := by
  constructor
  · intro pairs
    induction pairs with
    | nil => intro _; rfl
    | cons p rest ih =>
      intro hopt
      obtain ⟨seg, re0⟩ := p
      have htail := ih (fun q hq => hopt q (List.mem_cons_of_mem _ hq))
      cases seg with
      | lit s =>
        rw [renderLoop, htail]
        rfl
      | tok t =>
        have ho := hopt (Segment.tok t, re0) (List.mem_cons_self _ _)
        have hmod : t.Modifier = "?" ∨ t.Modifier = "*" := by
          simpa [segOptionalB] using ho
        rw [renderLoop, renderTokenSeg_nonmap t re0 validate data hd,
          if_pos hmod, htail]
        show GoRes.ok ("" ++ concatLits rest) = _
        rw [string_empty_append]
        rfl
  · intro pre t0 re0 rest hopt hreq
    have hmod : ¬ (t0.Modifier = "?" ∨ t0.Modifier = "*") := by
      simpa [segOptionalB] using hreq
    induction pre with
    | nil =>
      rw [List.nil_append, renderLoop,
        renderTokenSeg_nonmap t0 re0 validate data hd, if_neg hmod]
    | cons p pre1 ih =>
      obtain ⟨seg, re1⟩ := p
      have htail := ih (fun q hq => hopt q (List.mem_cons_of_mem _ hq))
      cases seg with
      | lit s =>
        rw [List.cons_append, renderLoop, htail]
        rfl
      | tok t =>
        have ho := hopt (Segment.tok t, re1) (List.mem_cons_self _ _)
        have hmod1 : t.Modifier = "?" ∨ t.Modifier = "*" := by
          simpa [segOptionalB] using ho
        rw [List.cons_append, renderLoop,
          renderTokenSeg_nonmap t re1 validate data hd, if_pos hmod1, htail]
        rfl

/-- Claim C10, witness: a literal/optional/literal list renders to the
literal concatenation under nil data, and a required parameter under non-map
data yields the expected-string error. -/
theorem render_nonmap_behavior_witness :
    renderLoop [(.lit "/a", none),
        (.tok ⟨.str "x", "/", "", "p", "?"⟩, none), (.lit "/b", none)]
        true .rnil = .ok "/a/b" ∧
      renderLoop [(.lit "/a", none), (.tok ⟨.str "x", "/", "", "p", ""⟩, none)]
        true .rother = .err "expected \"x\" to be a string" := by
  constructor
  · rw [(render_nonmap_behavior true .rnil (Or.inl rfl)).1
      [(.lit "/a", none), (.tok ⟨.str "x", "/", "", "p", "?"⟩, none),
        (.lit "/b", none)] (by decide)]
    decide
  · show renderLoop ([(.lit "/a", none)] ++
        (Segment.tok ⟨.str "x", "/", "", "p", ""⟩, none) :: []) true .rother =
      .err "expected \"x\" to be a string"
    rw [(render_nonmap_behavior true .rother (Or.inr rfl)).2
      [(.lit "/a", none)] ⟨.str "x", "/", "", "p", ""⟩ none [] (by decide)
      (by decide)]
    decide

end PathToRegexp
